import Mathlib

/-!
Shallow embedding of parallelrpclib (a client library for dispatching
XML-RPC batches in parallel) and proofs about its schedulers.

The embedding follows src/parallelrpclib/__init__.py. Python values that
occur as RPC arguments and results are modelled by a small first-order
fragment `PyVal` (enough to distinguish hashable tuples from unhashable
lists). Network behaviour (connection success, response status and body,
select readiness order, plain-proxy call outcomes) is supplied by an
explicit environment `Env`, and the per-transport mutable sequence
counter is threaded as an association list `Seqs`. Generators are
modelled as the list of results yielded before the generator either
finishes normally or raises (`GenOut`).
-/

/-- Fragment of Python values used as RPC arguments and decoded results.
`listVal` models a Python list (unhashable), `tupleVal` a tuple of
hashable elements (hashable). -/
inductive PyVal where
  | intVal (n : Int)
  | strVal (s : String)
  | noneVal
  | listVal (xs : List Int)
  | tupleVal (xs : List Int)
deriving DecidableEq, Repr

/-- Python hashability for the `PyVal` fragment: lists are unhashable,
everything else here is hashable. -/
def PyVal.hashable : PyVal → Bool
  | .listVal _ => false
  | _ => true

/-- Exceptions that the embedded code can raise or capture. -/
inductive Exc where
  | fault (code : Int) (msg : String)
  | ioError (msg : String)
  | typeError (msg : String)
  | nameError (msg : String)
  | keyError
  | assertionError
  | unknownProtocolError
deriving DecidableEq, Repr

/-- Decoded response value as returned by TwoStageServerProxy.finish_request:
a parse_response tuple of length one collapses to its single element,
any other length is returned as the whole tuple. -/
inductive RetVal where
  | single (v : PyVal)
  | multiple (vs : List PyVal)
deriving DecidableEq, Repr

/-- One (result, exception) pair as yielded by every scheduler. -/
abbrev RpcResult := Option RetVal × Option Exc

/-- Observable behaviour of a generator: the results it yielded, and the
exception it raised afterwards (`none` = ran to completion). -/
abbrev GenOut := List RpcResult × Option Exc

/-- Payload built by xmlrpclib.dumps(params, methodname, encoding, allow_none):
an opaque pure function of exactly these four inputs, modelled freely. -/
structure Payload where
  methodName : String
  params : PyVal
  encoding : Option String
  allowNone : Bool
deriving DecidableEq, Repr

/-- Deduplication key (methodname, arg_list, request_format()). -/
abbrev Fmt := String × PyVal × (Option String × Bool)

/-- TwoStageServerProxy: one endpoint bound to its own TwoStageTransport.
The `id` field models Python object identity of the proxy and of the
transport it owns (one transport per proxy, so one id serves both). -/
structure TSProxy where
  id : Nat
  host : Option (List Char)
  handler : List Char
  encoding : Option String
  allowNone : Bool
  verbose : Bool
deriving DecidableEq, Repr

/-- Plain xmlrpclib.ServerProxy (atomic-call-only endpoint). -/
structure PlainProxy where
  id : Nat
deriving DecidableEq, Repr

/-- Endpoint as seen by the schedulers: isinstance(j[0], TwoStageServerProxy)
distinguishes the two cases. -/
inductive Proxy where
  | ts (p : TSProxy)
  | plain (q : PlainProxy)
deriving DecidableEq, Repr

/-- Tests the isinstance(_, TwoStageServerProxy) check. -/
def Proxy.isTS : Proxy → Bool
  | .ts _ => true
  | .plain _ => false

/-- A job (object, methodname, arg_list). -/
abbrev Job := Proxy × String × PyVal

/-- A two-stage job after the isinstance partition. -/
abbrev TSJob := TSProxy × String × PyVal

/-- Per-transport mutable _seq counters, threaded as state. The counter
of a transport that never started a request is 0 (its __init__ value). -/
abbrev Seqs := List (Nat × Nat)

/-- Reads the _seq counter of transport `i`. -/
def seqGet (s : Seqs) (i : Nat) : Nat := (s.lookup i).getD 0

/-- Models `self._seq += 1` on transport `i`. -/
def seqBump (s : Seqs) (i : Nat) : Seqs := (i, seqGet s i + 1) :: s

/-- Connection handle obtained from make_connection; its socket file
descriptor is identified by the (transport id, sequence) pair that
opened it, which is unique among simultaneously open sockets. -/
structure Conn where
  pid : Nat
  seq : Nat
deriving DecidableEq, Repr

/-- Socket file descriptor key used in the socklist dictionary. -/
abbrev Sockfd := Nat × Nat

/-- State tuple (h, verbose, self._seq) returned by
TwoStageTransport.start_request. -/
structure THandle where
  conn : Conn
  verbose : Bool
  seq : Nat
deriving DecidableEq, Repr

/-- Request state held by the scheduler for one started job: either the
transport state tuple, or the sentinel already-failed handle (the
exception object returned by TwoStageServerProxy.start_request). -/
inductive RState where
  | exc (e : Exc)
  | ok (h : THandle)
deriving DecidableEq, Repr

/-- What parse_response does to the body of a 200 response. -/
inductive DecodeOutcome where
  | values (vs : List PyVal)
  | fault (code : Int) (msg : String)
  | raiseErr (e : Exc)
deriving DecidableEq, Repr

/-- What h.getresponse and the subsequent decode observe for one request. -/
inductive FinishBehavior where
  | raiseOnRead (e : Exc)
  | status (code : Nat) (body : DecodeOutcome)
deriving DecidableEq, Repr

/-- External behaviour: connection and send outcome per (transport, seq),
response per (transport, seq), plain ServerProxy call outcomes, and the
order in which select reports descriptors ready (an index choice per
poll-loop iteration). -/
structure Env where
  startOk : Nat → Nat → Option Exc
  finish : Nat → Nat → FinishBehavior
  plainCall : Nat → String → PyVal → Except Exc PyVal
  sched : Nat → Nat

/-- TwoStageTransport.start_request: under the lock, bump _seq, open the
connection and send the request; any failure is propagated after closing
(the bumped _seq persists either way). -/
def transportStartRequest (env : Env) (seqs : Seqs) (pid : Nat) (verbose : Bool) :
    Seqs × Except Exc THandle :=
  let seqs1 := seqBump seqs pid
  let s := seqGet seqs1 pid
  match env.startOk pid s with
  | some e => (seqs1, .error e)
  | none => (seqs1, .ok ⟨⟨pid, s⟩, verbose, s⟩)

/-- TwoStageServerProxy.start_request: delegate to the transport and
convert any raised exception into the sentinel already-failed handle. -/
def proxyStartRequest (env : Env) (seqs : Seqs) (p : TSProxy) (_pay : Payload) :
    Seqs × RState :=
  match transportStartRequest env seqs p.id p.verbose with
  | (s1, .error e) => (s1, .exc e)
  | (s1, .ok h) => (s1, .ok h)

/-- TwoStageTransport.get_sockfd: assert the state token matches the
current _seq, then return the socket of the connection. -/
def transportGetSockfd (seqs : Seqs) (pid : Nat) (h : THandle) : Except Exc Sockfd :=
  if h.seq = seqGet seqs pid then .ok (h.conn.pid, h.conn.seq)
  else .error .assertionError

/-- TwoStageServerProxy.get_sockfd: None for the sentinel handle,
otherwise the transport socket (the assert may raise here). -/
def proxyGetSockfd (seqs : Seqs) (p : TSProxy) : RState → Except Exc (Option Sockfd)
  | .exc _ => .ok none
  | .ok h => (transportGetSockfd seqs p.id h).map some

/-- TwoStageTransport.finish_request: assert the token, read the
response; on status 200 parse it (a fault payload raises Fault), on any
other status fall through the if and return Python None. -/
def transportFinishRequest (env : Env) (seqs : Seqs) (pid : Nat) (h : THandle) :
    Except Exc (Option (List PyVal)) :=
  if h.seq = seqGet seqs pid then
    match env.finish pid h.seq with
    | .raiseOnRead e => .error e
    | .status code body =>
      if code = 200 then
        match body with
        | .values vs => .ok (some vs)
        | .fault c m => .error (.fault c m)
        | .raiseErr e => .error e
      else .ok none
  else .error .assertionError

/-- TwoStageServerProxy.finish_request: sentinel handles become
(None, exc); a transport result of length 1 collapses to its element;
any exception, including the TypeError raised by len(None) when the
transport fell through on a non-200 status, is captured as (None, exc). -/
def proxyFinishRequest (env : Env) (seqs : Seqs) (p : TSProxy) : RState → RpcResult
  | .exc e => (none, some e)
  | .ok h =>
    match transportFinishRequest env seqs p.id h with
    | .error e => (none, some e)
    | .ok none => (none, some (.typeError "object of type NoneType has no len"))
    | .ok (some [v]) => (some (.single v), none)
    | .ok (some vs) => (some (.multiple vs), none)

/-- TwoStageServerProxy.request_format. -/
def requestFormat (p : TSProxy) : Option String × Bool := (p.encoding, p.allowNone)

/-- TwoStageServerProxy.make_request: xmlrpclib.dumps of the params and
methodname with the encoding options of this proxy. -/
def makeRequest (p : TSProxy) (m : String) (a : PyVal) : Payload :=
  ⟨m, a, p.encoding, p.allowNone⟩

/-- The deduplication key (m, a, p.request_format()) built per job. -/
def fmtOf (p : TSProxy) (m : String) (a : PyVal) : Fmt := (m, a, requestFormat p)

/-- Hashability of the key tuple: the methodname and the options pair
always hash; the whole tuple hashes iff the arg_list does. -/
def fmtHashable (f : Fmt) : Bool := f.2.1.hashable

/-- The comprehension selecting jobs whose endpoint isinstance-checks as
TwoStageServerProxy, with the proxy exposed in typed form. -/
def tsPart : List Job → List TSJob
  | [] => []
  | (.ts p, m, a) :: rest => (p, m, a) :: tsPart rest
  | (.plain _, _, _) :: rest => tsPart rest

/-- The comprehension selecting the remaining jobs. -/
def otherPart (jobs : List Job) : List Job :=
  jobs.filter fun j => !j.1.isTS

/-- The first pass over tsjs building the formats dictionary: for each
job compute its key (hashing it raises TypeError if the arg_list is
unhashable) and record the first proxy seen for each distinct key. -/
def buildFormats : List TSJob → List (Fmt × TSProxy) → Except Exc (List (Fmt × TSProxy))
  | [], acc => .ok acc
  | (p, m, a) :: rest, acc =>
    let f := fmtOf p m a
    if fmtHashable f then
      if (acc.lookup f).isSome then buildFormats rest acc
      else buildFormats rest (acc ++ [(f, p)])
    else .error (.typeError "unhashable type")

/-- The second pass replacing each representative proxy by the payload it
builds; the second component is the log of make_request invocations
(proxy id, key), one per entry of the dictionary. -/
def buildPayloads (reps : List (Fmt × TSProxy)) :
    List (Fmt × Payload) × List (Nat × Fmt) :=
  (reps.map fun fp => (fp.1, makeRequest fp.2 fp.1.1 fp.1.2.1),
   reps.map fun fp => (fp.2.id, fp.1))

/-- The first proxy in a tsjs list whose key equals `f`; used to state
which endpoint the dictionary keeps as representative. -/
def firstWithFmt : List TSJob → Fmt → Option TSProxy
  | [], _ => none
  | (p, m, a) :: rest, f =>
    if fmtOf p m a = f then some p else firstWithFmt rest f

/-- The start loop: look up the cached payload for each job key (a
missing key would raise KeyError) and start the request, recording the
(proxy, state) pair whether or not the start succeeded. -/
def startAll (env : Env) (cache : List (Fmt × Payload)) :
    List TSJob → Seqs → Seqs × Except Exc (List (TSProxy × RState))
  | [], seqs => (seqs, .ok [])
  | (p, m, a) :: rest, seqs =>
    match cache.lookup (fmtOf p m a) with
    | none => (seqs, .error .keyError)
    | some pay =>
      let (seqs1, st) := proxyStartRequest env seqs p pay
      match startAll env cache rest seqs1 with
      | (seqs2, .error e) => (seqs2, .error e)
      | (seqs2, .ok l) => (seqs2, .ok ((p, st) :: l))

/-- The socklist construction: get_sockfd of each started pair (in order);
None sockets are skipped, and the stale-token assert can raise out of
the generator here. -/
def buildSocklist (seqs : Seqs) :
    List (TSProxy × RState) → Except Exc (List (Sockfd × (TSProxy × RState)))
  | [] => .ok []
  | pr :: rest =>
    match proxyGetSockfd seqs pr.1 pr.2 with
    | .error e => .error e
    | .ok none => buildSocklist seqs rest
    | .ok (some fd) =>
      match buildSocklist seqs rest with
      | .error e => .error e
      | .ok sl => .ok ((fd, pr) :: sl)

/-- The while-socklist select loop, with fuel equal to the socklist size
at entry: each iteration select reports one remaining descriptor ready
(the environment chooses which), the pair is removed from socklist and
from started, and its finish_request result is yielded. -/
def pollLoopAux (env : Env) (seqs : Seqs) :
    Nat → Nat → List (Sockfd × (TSProxy × RState)) → List (TSProxy × RState) →
    List RpcResult × List (TSProxy × RState)
  | 0, _, _, started => ([], started)
  | fuel + 1, t, sl, started =>
    if hne : sl.length = 0 then ([], started)
    else
      let i := env.sched t % sl.length
      let x := sl.get ⟨i, Nat.mod_lt _ (Nat.pos_of_ne_zero hne)⟩
      let out := pollLoopAux env seqs fuel (t + 1) (sl.eraseIdx i) (started.erase x.2)
      (proxyFinishRequest env seqs x.2.1 x.2.2 :: out.1, out.2)

/-- Entry point for the select loop: each iteration removes exactly one
entry, so fuel equal to the initial length drains the socklist. -/
def pollLoop (env : Env) (seqs : Seqs) (sl : List (Sockfd × (TSProxy × RState)))
    (started : List (TSProxy × RState)) : List RpcResult × List (TSProxy × RState) :=
  pollLoopAux env seqs sl.length 0 sl started

/-- An atomic synchronous round trip of a two-stage proxy:
finish_request(start_request(make_request(m, params))). -/
def proxyRequest (env : Env) (seqs : Seqs) (p : TSProxy) (m : String) (a : PyVal) :
    Seqs × RpcResult :=
  let pay := makeRequest p m a
  let (seqs1, st) := proxyStartRequest env seqs p pay
  (seqs1, proxyFinishRequest env seqs1 p st)

/-- The _sequential_request helper: two-stage proxies use their one-shot
request, plain proxies perform getattr(proxy, m)(*a); any exception is
captured as (None, exc). -/
def sequentialRequest (env : Env) (seqs : Seqs) : Job → Seqs × RpcResult
  | (.ts p, m, a) => proxyRequest env seqs p m a
  | (.plain q, m, a) =>
    match env.plainCall q.id m a with
    | .ok v => (seqs, (some (.single v), none))
    | .error e => (seqs, (none, some e))

/-- RunSequentialJobs: one _sequential_request per job, in order. -/
def runSequentialJobs (env : Env) (seqs : Seqs) : List Job → Seqs × List RpcResult
  | [] => (seqs, [])
  | j :: rest =>
    let (s1, r) := sequentialRequest env seqs j
    let (s2, rs) := runSequentialJobs env s1 rest
    (s2, r :: rs)

/-- RunThreadedJobs, modelled under the serialized thread schedule in
which each spawned thread runs to completion before the next spawn: the
shared results list then accumulates in submission order and the
join-and-drain loop yields the pairs in that order. -/
def runThreadedJobs (env : Env) (seqs : Seqs) : List Job → Seqs × List RpcResult
  | [] => (seqs, [])
  | j :: rest =>
    let (s1, r) := sequentialRequest env seqs j
    let (s2, rs) := runThreadedJobs env s1 rest
    (s2, r :: rs)

/-- The callable passed as the fallback argument of RunTwoStageJobs:
either of the two scheduler functions, or the module helper
_threaded_requests, whose signature takes three positional arguments. -/
inductive FallbackVal where
  | fbSequential
  | fbRunThreaded
  | fbThreadedRequests
deriving DecidableEq, Repr

/-- Calling fallback(others) with the single others argument: the two
schedulers run the jobs; _threaded_requests raises TypeError at the call
because it is missing two positional arguments. -/
def callFallback (env : Env) (seqs : Seqs) : FallbackVal → List Job → Seqs × GenOut
  | .fbSequential, js =>
    let (s, rs) := runSequentialJobs env seqs js
    (s, (rs, none))
  | .fbRunThreaded, js =>
    let (s, rs) := runThreadedJobs env seqs js
    (s, (rs, none))
  | .fbThreadedRequests, _ =>
    (seqs, ([], some (.typeError "threaded_requests takes exactly 3 arguments, 1 given")))

/-- RunTwoStageJobs: partition the jobs, build the formats dictionary and
the payload cache, start every two-stage request, drain the fallback
over the other jobs, then select over the started sockets and finally
finish the remaining (sentinel) handles. In the branch with no two-stage
jobs the source assigns `others = proxies`, a name that is not defined
there, so the generator raises NameError. -/
def runTwoStageJobs (env : Env) (seqs : Seqs) (fb : FallbackVal) (jobs : List Job) : GenOut :=
  let tsjs := tsPart jobs
  if tsjs.isEmpty then
    ([], some (.nameError "name proxies is not defined"))
  else
    let others := otherPart jobs
    match buildFormats tsjs [] with
    | .error e => ([], some e)
    | .ok reps =>
      let cache := (buildPayloads reps).1
      match startAll env cache tsjs seqs with
      | (_, .error e) => ([], some e)
      | (seqs1, .ok started) =>
        match if others.isEmpty then (seqs1, ([], none)) else callFallback env seqs1 fb others with
        | (_, (fbRes, some e)) => (fbRes, some e)
        | (seqs2, (fbRes, none)) =>
          match buildSocklist seqs2 started with
          | .error e => (fbRes, some e)
          | .ok socklist =>
            match pollLoop env seqs2 socklist started with
            | (pollRes, rem) =>
              (fbRes ++ pollRes ++ rem.map (fun pr => proxyFinishRequest env seqs2 pr.1 pr.2),
               none)

/-- The _two_stage_requests helper used by TwoStageParallelServerProxy. -/
def twoStageRequests (env : Env) (seqs : Seqs) (proxies : List Proxy)
    (m : String) (params : PyVal) : GenOut :=
  runTwoStageJobs env seqs .fbSequential (proxies.map fun p => (p, m, params))

/-- The _hybrid_requests helper used by HybridParallelServerProxy: it
passes _threaded_requests, not RunThreadedJobs, as the fallback. -/
def hybridRequests (env : Env) (seqs : Seqs) (proxies : List Proxy)
    (m : String) (params : PyVal) : GenOut :=
  runTwoStageJobs env seqs .fbThreadedRequests (proxies.map fun p => (p, m, params))

/-- Scheme extraction of urllib splittype: the regex prefix of characters
other than slash and colon, which must be nonempty and followed by a
colon. -/
def splitScheme (acc : List Char) : List Char → Option (List Char × List Char)
  | [] => none
  | c :: cs =>
    if c = ':' then
      if acc.isEmpty then none else some (acc.reverse, cs)
    else if c = '/' then none
    else splitScheme (c :: acc) cs

/-- The urllib splittype collaborator: lowercased scheme and remainder,
or no scheme when the regex does not match. -/
def splittype (url : List Char) : Option (List Char) × List Char :=
  match splitScheme [] url with
  | some (s, rest) => (some (s.map Char.toLower), rest)
  | none => (none, url)

/-- The urllib splithost collaborator: when the remainder starts with two
slashes, the host is everything up to the next slash or question mark
and the rest is the path; otherwise there is no host part. -/
def splithost (u : List Char) : Option (List Char) × List Char :=
  match u with
  | '/' :: '/' :: rest =>
    let hostPart := rest.takeWhile fun c => c ≠ '/' && c ≠ '?'
    (some hostPart, rest.drop hostPart.length)
  | _ => (none, u)

/-- TwoStageServerProxy.__init__: split the scheme, raise
UnknownProtocolError for anything but http, split the host, default the
handler to /RPC2, then construct the TwoStageTransport. The second
component counts the transports constructed, zero on the error path. -/
def tsspInit (pid : Nat) (uri : List Char) (encoding : Option String)
    (allowNone : Bool) (verbose : Bool) : Except Exc TSProxy × Nat :=
  match splittype uri with
  | (ty, rest) =>
    if ty = some ("http".data) then
      let hh := splithost rest
      let handler := if hh.2.isEmpty then "/RPC2".data else hh.2
      (.ok ⟨pid, hh.1, handler, encoding, allowNone, verbose⟩, 1)
    else (.error .unknownProtocolError, 0)

/-- Test for one of the substrings that mark a server address as local in
the tssp_localhost_only gate. -/
def leadsWith : List Char → List Char → Bool
  | [], _ => true
  | _ :: _, [] => false
  | a :: as, b :: bs => a = b && leadsWith as bs

/-- Substring containment over character lists. -/
def containsSeq (pat : List Char) : List Char → Bool
  | [] => pat.isEmpty
  | c :: cs => leadsWith pat (c :: cs) || containsSeq pat cs

/-- The tssp_localhost_only gate of _ParallelServerProxy.__init__. -/
def gateAllows (lo : Bool) (u : List Char) : Bool :=
  !lo || containsSeq ("://localhost".data) u || containsSeq ("://127.0.0.".data) u
    || containsSeq ("://::1/".data) u

/-- One configured server: either a string address or an endpoint object
passed through untouched. -/
inductive ServerSpec where
  | addr (uri : List Char)
  | obj (p : Proxy)

/-- The per-server body of _ParallelServerProxy.__init__: string
addresses passing the gate are tried as TwoStageServerProxy, and exactly
an UnknownProtocolError is caught and replaced by a plain
xmlrpclib.ServerProxy; other addresses get a plain proxy directly. -/
def buildProxy (lo : Bool) (pid : Nat) : ServerSpec → Except Exc Proxy
  | .obj p => .ok p
  | .addr u =>
    if gateAllows lo u then
      match (tsspInit pid u none false false).1 with
      | .ok p => .ok (.ts p)
      | .error .unknownProtocolError => .ok (.plain ⟨pid⟩)
      | .error e => .error e
    else .ok (.plain ⟨pid⟩)

/-- Environment in which every connection succeeds and every response is
a status 200 single value distinguishing its transport and sequence. -/
def envOk : Env where
  startOk := fun _ _ => none
  finish := fun pid s => .status 200 (.values [.intVal (Int.ofNat (10 * pid + s))])
  plainCall := fun pid m _ => .ok (.strVal (m ++ String.mk (Nat.toDigits 10 pid)))
  sched := fun _ => 0

/-- Environment in which transport 1 refuses the connection at start and
every other transport behaves like envOk. -/
def envRefuse1 : Env where
  startOk := fun pid _ => if pid = 1 then some (.ioError "connection refused") else none
  finish := fun pid s => .status 200 (.values [.intVal (Int.ofNat (10 * pid + s))])
  plainCall := fun pid m _ => .ok (.strVal (m ++ String.mk (Nat.toDigits 10 pid)))
  sched := fun _ => 0

/-- A two-stage proxy for tests, numbered by its transport id. -/
def tsp (i : Nat) : TSProxy := ⟨i, some ("h".data), "/RPC2".data, none, false, false⟩

/-- Lookup succeeds exactly on the keys of an association list. -/
theorem lookup_isSome_iff_mem_keys {α β : Type} [BEq α] [LawfulBEq α]
    (l : List (α × β)) (a : α) :
    (l.lookup a).isSome = true ↔ a ∈ l.map Prod.fst := by
  induction l with
  | nil => simp [List.lookup]
  | cons x xs ih =>
    rcases x with ⟨k, b⟩
    by_cases h : a = k
    · subst h; simp [List.lookup_cons]
    · simp only [List.lookup_cons, beq_eq_false_iff_ne.mpr h, List.map_cons, List.mem_cons]
      simp [h, ih]

/-- A hit in the left part of an appended association list persists. -/
theorem lookup_append_some {α β : Type} [BEq α] [LawfulBEq α] {l1 : List (α × β)}
    (l2 : List (α × β)) {a : α} {b : β} (h : l1.lookup a = some b) :
    (l1 ++ l2).lookup a = some b := by
  induction l1 with
  | nil => simp [List.lookup] at h
  | cons x xs ih =>
    rcases x with ⟨k, c⟩
    by_cases hk : a = k
    · subst hk
      simp only [List.lookup_cons, beq_self_eq_true] at h
      simp [List.cons_append, List.lookup_cons, h]
    · simp only [List.cons_append, List.lookup_cons, beq_eq_false_iff_ne.mpr hk] at h ⊢
      exact ih h

/-- A miss in the left part of an appended association list defers to the
right part. -/
theorem lookup_append_none {α β : Type} [BEq α] [LawfulBEq α] {l1 : List (α × β)}
    (l2 : List (α × β)) {a : α} (h : l1.lookup a = none) :
    (l1 ++ l2).lookup a = l2.lookup a := by
  induction l1 with
  | nil => simp
  | cons x xs ih =>
    rcases x with ⟨k, c⟩
    by_cases hk : a = k
    · subst hk; simp [List.lookup_cons] at h
    · simp only [List.cons_append, List.lookup_cons, beq_eq_false_iff_ne.mpr hk] at h ⊢
      exact ih h

/-- Entries already present in the accumulating dictionary survive the
first formats pass. -/
theorem buildFormats_pres {l : List TSJob} {acc r : List (Fmt × TSProxy)}
    (hok : buildFormats l acc = .ok r) {f : Fmt} {q : TSProxy}
    (h : acc.lookup f = some q) : r.lookup f = some q := by
  induction l generalizing acc with
  | nil => simp only [buildFormats] at hok; cases hok; exact h
  | cons j rest ih =>
    rcases j with ⟨p, m, a⟩
    simp only [buildFormats] at hok
    by_cases hh : fmtHashable (fmtOf p m a)
    · rw [if_pos hh] at hok
      by_cases hs : ((acc.lookup (fmtOf p m a)).isSome : Prop)
      · rw [if_pos hs] at hok; exact ih hok h
      · rw [if_neg hs] at hok
        exact ih hok (lookup_append_some _ h)
    · rw [if_neg hh] at hok; cases hok

/-- A key absent from the dictionary so far is entered with the first
proxy of the remaining jobs that produces it. -/
theorem buildFormats_first {l : List TSJob} {acc r : List (Fmt × TSProxy)}
    (hok : buildFormats l acc = .ok r) {f : Fmt} {q : TSProxy}
    (hacc : acc.lookup f = none) (hfw : firstWithFmt l f = some q) :
    r.lookup f = some q := by
  induction l generalizing acc with
  | nil => simp [firstWithFmt] at hfw
  | cons j rest ih =>
    rcases j with ⟨p, m, a⟩
    simp only [buildFormats] at hok
    by_cases hh : fmtHashable (fmtOf p m a)
    · rw [if_pos hh] at hok
      by_cases hf : fmtOf p m a = f
      · subst hf
        rw [firstWithFmt, if_pos rfl] at hfw
        injection hfw with hpq
        subst hpq
        have hs : ¬ ((acc.lookup (fmtOf p m a)).isSome : Prop) := by
          simp [hacc]
        rw [if_neg hs] at hok
        refine buildFormats_pres hok ?_
        rw [lookup_append_none _ hacc]
        simp [List.lookup_cons]
      · rw [firstWithFmt, if_neg hf] at hfw
        by_cases hs : ((acc.lookup (fmtOf p m a)).isSome : Prop)
        · rw [if_pos hs] at hok; exact ih hok hacc hfw
        · rw [if_neg hs] at hok
          refine ih hok ?_ hfw
          rw [lookup_append_none _ hacc]
          simp [List.lookup, beq_eq_false_iff_ne.mpr (fun h => hf h.symm)]
    · rw [if_neg hh] at hok; cases hok

/-- A key produced by no job and absent so far stays absent. -/
theorem buildFormats_none {l : List TSJob} {acc r : List (Fmt × TSProxy)}
    (hok : buildFormats l acc = .ok r) {f : Fmt}
    (hacc : acc.lookup f = none) (hfw : firstWithFmt l f = none) :
    r.lookup f = none := by
  induction l generalizing acc with
  | nil => simp only [buildFormats] at hok; cases hok; exact hacc
  | cons j rest ih =>
    rcases j with ⟨p, m, a⟩
    simp only [buildFormats] at hok
    by_cases hh : fmtHashable (fmtOf p m a)
    · rw [if_pos hh] at hok
      have hf : fmtOf p m a ≠ f := by
        intro hf
        rw [firstWithFmt, if_pos hf] at hfw; cases hfw
      rw [firstWithFmt, if_neg hf] at hfw
      by_cases hs : ((acc.lookup (fmtOf p m a)).isSome : Prop)
      · rw [if_pos hs] at hok; exact ih hok hacc hfw
      · rw [if_neg hs] at hok
        refine ih hok ?_ hfw
        rw [lookup_append_none _ hacc]
        simp [List.lookup, beq_eq_false_iff_ne.mpr (fun h => hf h.symm)]
    · rw [if_neg hh] at hok; cases hok

/-- The formats dictionary built from scratch maps every key to the first
proxy among the two-stage jobs that produces that key. -/
theorem buildFormats_lookup {l : List TSJob} {r : List (Fmt × TSProxy)}
    (hok : buildFormats l [] = .ok r) (f : Fmt) :
    r.lookup f = firstWithFmt l f := by
  cases hfw : firstWithFmt l f with
  | none => exact buildFormats_none hok (by simp [List.lookup]) hfw
  | some q => exact buildFormats_first hok (by simp [List.lookup]) hfw

/-- The formats pass never duplicates a key. -/
theorem buildFormats_nodup {l : List TSJob} {acc r : List (Fmt × TSProxy)}
    (hok : buildFormats l acc = .ok r) (hacc : (acc.map Prod.fst).Nodup) :
    (r.map Prod.fst).Nodup := by
  induction l generalizing acc with
  | nil => simp only [buildFormats] at hok; cases hok; exact hacc
  | cons j rest ih =>
    rcases j with ⟨p, m, a⟩
    simp only [buildFormats] at hok
    by_cases hh : fmtHashable (fmtOf p m a)
    · rw [if_pos hh] at hok
      by_cases hs : ((acc.lookup (fmtOf p m a)).isSome : Prop)
      · rw [if_pos hs] at hok; exact ih hok hacc
      · rw [if_neg hs] at hok
        refine ih hok ?_
        rw [List.map_append]
        refine List.nodup_append.mpr ⟨hacc, by simp, ?_⟩
        intro x hx
        simp only [List.map_cons, List.map_nil, List.mem_cons, List.not_mem_nil, or_false]
        rintro rfl
        exact hs ((lookup_isSome_iff_mem_keys acc _).mpr hx)
    · rw [if_neg hh] at hok; cases hok

/-- An unhashable arg_list among the jobs makes the formats pass raise
TypeError, whatever was accumulated before. -/
theorem buildFormats_unhashable {l : List TSJob} {p : TSProxy} {m : String} {a : PyVal}
    (hmem : (p, m, a) ∈ l) (hna : a.hashable = false) (acc : List (Fmt × TSProxy)) :
    buildFormats l acc = .error (.typeError "unhashable type") := by
  induction l generalizing acc with
  | nil => cases hmem
  | cons j rest ih =>
    rcases j with ⟨p', m', a'⟩
    rcases List.mem_cons.mp hmem with hj | hj
    · cases hj
      have hh : ¬ (fmtHashable (fmtOf p m a) : Prop) := by
        simp [fmtHashable, fmtOf, hna]
      simp only [buildFormats]
      rw [if_neg hh]
    · simp only [buildFormats]
      by_cases hh : fmtHashable (fmtOf p' m' a')
      · rw [if_pos hh]
        by_cases hs : ((acc.lookup (fmtOf p' m' a')).isSome : Prop)
        · rw [if_pos hs]; exact ih hj _
        · rw [if_neg hs]; exact ih hj _
      · rw [if_neg hh]

/-- A job in the list guarantees its key has a first representative. -/
theorem firstWithFmt_isSome {l : List TSJob} {p : TSProxy} {m : String} {a : PyVal}
    (hmem : (p, m, a) ∈ l) : ∃ q, firstWithFmt l (fmtOf p m a) = some q := by
  induction l with
  | nil => cases hmem
  | cons j rest ih =>
    rcases j with ⟨p', m', a'⟩
    by_cases hf : fmtOf p' m' a' = fmtOf p m a
    · exact ⟨p', by rw [firstWithFmt, if_pos hf]⟩
    · rcases List.mem_cons.mp hmem with hj | hj
      · cases hj; exact absurd rfl hf
      · rcases ih hj with ⟨q, hq⟩
        exact ⟨q, by rw [firstWithFmt, if_neg hf]; exact hq⟩

/-- A key with a representative is the key of one of the jobs. -/
theorem firstWithFmt_mem_image {l : List TSJob} {f : Fmt} {q : TSProxy}
    (h : firstWithFmt l f = some q) :
    f ∈ l.map fun x => fmtOf x.1 x.2.1 x.2.2 := by
  induction l with
  | nil => simp [firstWithFmt] at h
  | cons j rest ih =>
    rcases j with ⟨p', m', a'⟩
    by_cases hf : fmtOf p' m' a' = f
    · simp [hf]
    · rw [firstWithFmt, if_neg hf] at h
      simp only [List.map_cons, List.mem_cons]
      exact Or.inr (ih h)

/-- The representative of a key carries the encoding options recorded in
the key. -/
theorem firstWithFmt_requestFormat {l : List TSJob} {f : Fmt} {q : TSProxy}
    (h : firstWithFmt l f = some q) : requestFormat q = f.2.2 := by
  induction l with
  | nil => simp [firstWithFmt] at h
  | cons j rest ih =>
    rcases j with ⟨p', m', a'⟩
    by_cases hf : fmtOf p' m' a' = f
    · rw [firstWithFmt, if_pos hf] at h
      cases h
      rw [← hf]
      rfl
    · rw [firstWithFmt, if_neg hf] at h
      exact ih h

/-- The payload pass keeps the keys and stores, for each key, the payload
built by the representative from the key components. -/
theorem buildPayloads_lookup {reps : List (Fmt × TSProxy)} {f : Fmt} {q : TSProxy}
    (h : reps.lookup f = some q) :
    (buildPayloads reps).1.lookup f = some (makeRequest q f.1 f.2.1) := by
  induction reps with
  | nil => simp [List.lookup] at h
  | cons x xs ih =>
    rcases x with ⟨f', q'⟩
    by_cases hf : f = f'
    · subst hf
      simp only [List.lookup_cons, beq_self_eq_true] at h
      cases h
      simp [buildPayloads, List.lookup]
    · simp only [List.lookup_cons, beq_eq_false_iff_ne.mpr hf] at h
      simpa [buildPayloads, List.lookup, beq_eq_false_iff_ne.mpr hf] using ih h

/-- The job membership transfer into the isinstance partition. -/
theorem mem_tsPart_of_mem {jobs : List Job} {p : TSProxy} {m : String} {a : PyVal}
    (h : (Proxy.ts p, m, a) ∈ jobs) : (p, m, a) ∈ tsPart jobs := by
  induction jobs with
  | nil => cases h
  | cons j rest ih =>
    rcases List.mem_cons.mp h with hj | hj
    · rw [← hj]; simp [tsPart]
    · rcases j with ⟨pj, mj, aj⟩
      cases pj with
      | ts p' => simp only [tsPart, List.mem_cons]; exact Or.inr (ih hj)
      | plain q' => simpa [tsPart] using ih hj

/-- Every result yielded by the select loop is the finish_request of one
of the socklist pairs. -/
theorem pollLoopAux_mem (env : Env) (seqs : Seqs) :
    ∀ (fuel t : Nat) (sl : List (Sockfd × (TSProxy × RState)))
      (started : List (TSProxy × RState)),
      ∀ r ∈ (pollLoopAux env seqs fuel t sl started).1,
        ∃ x ∈ sl, r = proxyFinishRequest env seqs x.2.1 x.2.2 := by
  intro fuel
  induction fuel with
  | zero => intro t sl started r hr; simp [pollLoopAux] at hr
  | succ fuel ih =>
    intro t sl started r hr
    rw [pollLoopAux] at hr
    by_cases hne : sl.length = 0
    · rw [dif_pos hne] at hr; simp at hr
    · rw [dif_neg hne] at hr
      dsimp only at hr
      rcases List.mem_cons.mp hr with hr | hr
      · exact ⟨_, List.get_mem _ _ _, hr⟩
      · rcases ih _ _ _ _ hr with ⟨x, hx, hrx⟩
        exact ⟨x, List.eraseIdx_subset _ _ hx, hrx⟩

/-- Whatever the select loop leaves in started was in started at entry. -/
theorem pollLoopAux_rem_subset (env : Env) (seqs : Seqs) :
    ∀ (fuel t : Nat) (sl : List (Sockfd × (TSProxy × RState)))
      (started : List (TSProxy × RState)),
      (pollLoopAux env seqs fuel t sl started).2 ⊆ started := by
  intro fuel
  induction fuel with
  | zero => intro t sl started; simp [pollLoopAux]
  | succ fuel ih =>
    intro t sl started
    rw [pollLoopAux]
    by_cases hne : sl.length = 0
    · rw [dif_pos hne]
      exact fun a ha => ha
    · rw [dif_neg hne]
      dsimp only
      exact (ih _ _ _).trans (List.erase_subset _ _)

/-- When every socklist pair has a real transport handle, the select loop
never removes a sentinel pair from started: the number of occurrences of
each sentinel pair is unchanged. -/
theorem pollLoopAux_count_exc (env : Env) (seqs : Seqs) :
    ∀ (fuel t : Nat) (sl : List (Sockfd × (TSProxy × RState)))
      (started : List (TSProxy × RState)),
      (∀ x ∈ sl, ∃ h, (x : Sockfd × (TSProxy × RState)).2.2 = RState.ok h) →
      ∀ (p : TSProxy) (e : Exc),
        (pollLoopAux env seqs fuel t sl started).2.count (p, RState.exc e)
          = started.count (p, RState.exc e) := by
  intro fuel
  induction fuel with
  | zero => intro t sl started _ p e; simp [pollLoopAux]
  | succ fuel ih =>
    intro t sl started hok p e
    rw [pollLoopAux]
    by_cases hne : sl.length = 0
    · rw [dif_pos hne]
    · rw [dif_neg hne]
      dsimp only
      have hi : env.sched t % sl.length < sl.length :=
        Nat.mod_lt _ (Nat.pos_of_ne_zero hne)
      rcases hok _ (List.get_mem sl (env.sched t % sl.length) hi) with ⟨h, hx⟩
      have hneq : (p, RState.exc e) ≠ (sl.get ⟨env.sched t % sl.length, hi⟩).2 := by
        intro hq
        rw [← hq] at hx
        cases hx
      rw [ih _ _ _ (fun x hxm => hok x (List.eraseIdx_subset _ _ hxm)) p e]
      exact List.count_erase_of_ne hneq _

/-- Every pair entered into socklist came from started and holds a real
transport handle (the sentinel pairs produce no socket). -/
theorem buildSocklist_mem {seqs : Seqs} :
    ∀ {started : List (TSProxy × RState)} {sl : List (Sockfd × (TSProxy × RState))},
      buildSocklist seqs started = .ok sl →
      ∀ x ∈ sl, x.2 ∈ started ∧ ∃ h, x.2.2 = RState.ok h := by
  intro started
  induction started with
  | nil =>
    intro sl hok x hx
    simp only [buildSocklist] at hok
    cases hok
    simp at hx
  | cons pr rest ih =>
    intro sl hok x hx
    simp only [buildSocklist] at hok
    cases hgs : proxyGetSockfd seqs pr.1 pr.2 with
    | error e => rw [hgs] at hok; cases hok
    | ok o =>
      rw [hgs] at hok
      cases o with
      | none =>
        have hx2 := ih hok x hx
        exact ⟨List.mem_cons_of_mem _ hx2.1, hx2.2⟩
      | some fd =>
        cases hrec : buildSocklist seqs rest with
        | error e => rw [hrec] at hok; cases hok
        | ok sl2 =>
          rw [hrec] at hok
          cases hok
          rcases List.mem_cons.mp hx with hx | hx
          · subst hx
            refine ⟨List.mem_cons_self _ _, ?_⟩
            cases hpr : pr.2 with
            | exc e => rw [hpr] at hgs; simp [proxyGetSockfd] at hgs
            | ok h => exact ⟨h, rfl⟩
          · have hx2 := ih hrec x hx
            exact ⟨List.mem_cons_of_mem _ hx2.1, hx2.2⟩

/-- Unfolding of a RunTwoStageJobs run through its phases, given the
observed value of each phase. -/
theorem runTwoStage_run_eq {env : Env} {seqs0 seqs1 seqs2 : Seqs} {fb : FallbackVal}
    {jobs : List Job} {reps : List (Fmt × TSProxy)} {started : List (TSProxy × RState)}
    {A B : List RpcResult} {socklist : List (Sockfd × (TSProxy × RState))}
    {rem : List (TSProxy × RState)}
    (hts : (tsPart jobs).isEmpty = false)
    (hbf : buildFormats (tsPart jobs) [] = .ok reps)
    (hsa : startAll env (buildPayloads reps).1 (tsPart jobs) seqs0 = (seqs1, .ok started))
    (hcf : (if (otherPart jobs).isEmpty then (seqs1, ([], none))
            else callFallback env seqs1 fb (otherPart jobs)) = (seqs2, (A, none)))
    (hsl : buildSocklist seqs2 started = .ok socklist)
    (hpl : pollLoop env seqs2 socklist started = (B, rem)) :
    runTwoStageJobs env seqs0 fb jobs =
      (A ++ B ++ rem.map (fun pr => proxyFinishRequest env seqs2 pr.1 pr.2), none) := by
  unfold runTwoStageJobs
  simp only [hts, Bool.false_eq_true, if_false, hbf, hsa, hcf, hsl, hpl]

/-- RunSequentialJobs yields one pair per job. -/
theorem runSequentialJobs_length (env : Env) :
    ∀ (jobs : List Job) (seqs : Seqs),
      (runSequentialJobs env seqs jobs).2.length = jobs.length := by
  intro jobs
  induction jobs with
  | nil => intro seqs; rfl
  | cons j rest ih =>
    intro seqs
    simp only [runSequentialJobs]
    simp [ih]

/-- The i-th pair yielded by RunSequentialJobs is the synchronous outcome
of the i-th job, run in the transport state left by the previous jobs. -/
theorem runSequentialJobs_get (env : Env) :
    ∀ (jobs : List Job) (seqs : Seqs) (i : Nat) (hi : i < jobs.length),
      (runSequentialJobs env seqs jobs).2.get? i =
        some (sequentialRequest env (runSequentialJobs env seqs (jobs.take i)).1
          (jobs.get ⟨i, hi⟩)).2 := by
  intro jobs
  induction jobs with
  | nil => intro seqs i hi; simp at hi
  | cons j rest ih =>
    intro seqs i hi
    cases i with
    | zero =>
      simp only [runSequentialJobs, List.take_zero]
      rfl
    | succ i =>
      have hi2 : i < rest.length := Nat.lt_of_succ_lt_succ hi
      simp only [runSequentialJobs, List.take_succ_cons]
      rw [List.get?_cons_succ]
      rw [ih _ i hi2]
      rfl

/-- Environment in which every response carries a non-200 status. -/
def envStatus500 : Env where
  startOk := fun _ _ => none
  finish := fun _ _ => .status 500 (.values [])
  plainCall := fun _ m _ => .ok (.strVal m)
  sched := fun _ => 0

/-- Environment in which every exchange succeeds at the transport level
but the decoded payload is a structured fault. -/
def envFault : Env where
  startOk := fun _ _ => none
  finish := fun _ _ => .status 200 (.fault 3 "boom")
  plainCall := fun _ m _ => .ok (.strVal m)
  sched := fun _ => 0

/-- Environment in which the plain proxy with id 9 raises on call. -/
def envPlainBoom : Env where
  startOk := fun _ _ => none
  finish := fun pid s => .status 200 (.values [.intVal (Int.ofNat (10 * pid + s))])
  plainCall := fun pid m _ => if pid = 9 then .error (.ioError "boom") else .ok (.strVal m)
  sched := fun _ => 0

/-- Count of a member of a duplicate-free list, for any lawful equality
test. -/
theorem count_eq_one_of_mem_lawful {α : Type} [BEq α] [LawfulBEq α] {a : α} {l : List α}
    (hn : l.Nodup) (h : a ∈ l) : l.count a = 1 := by
  induction l with
  | nil => cases h
  | cons b bs ih =>
    rcases List.nodup_cons.mp hn with ⟨hb, hbs⟩
    rcases List.mem_cons.mp h with h | h
    · subst h
      rw [List.count_cons, List.count_eq_zero.mpr hb]
      simp
    · rw [List.count_cons, ih hbs h]
      have hba : (b == a) = false := by
        refine beq_eq_false_iff_ne.mpr ?_
        rintro rfl
        exact hb h
      simp [hba]

/-- C1: the claim says every batch, including one with zero
two-stage-capable jobs, yields one Result per Job through the fallback.
The code instead raises NameError in that branch, because the
`others = proxies` assignment in RunTwoStageJobs references a name
defined nowhere: for a batch of one plain job (and even for the empty
batch) the generator yields nothing and raises. -/
theorem runTwoStage_no_pipelineable_raises_nameError :
    runTwoStageJobs envOk [] .fbSequential [(Proxy.plain ⟨0⟩, "m", PyVal.noneVal)] =
      ([], some (.nameError "name proxies is not defined"))
    ∧ runTwoStageJobs envOk [] .fbSequential [] =
      ([], some (.nameError "name proxies is not defined")) :=
  ⟨rfl, rfl⟩

/-- C2: among the two-stage jobs, make_request runs exactly once per
distinct FormatKey (the count of each key in the invocation log is one
when some job produces the key and zero otherwise); the dictionary keeps
the first endpoint producing each key as its representative; and the
payload cached for the key of every job equals the payload that the
job's own proxy would build, so all jobs sharing a key reuse the same
bytes built by the single representative. -/
theorem runTwoStage_payload_dedup {jobs : List Job} {reps : List (Fmt × TSProxy)}
    (hbf : buildFormats (tsPart jobs) [] = .ok reps) :
    (∀ f : Fmt, ((buildPayloads reps).2.map Prod.snd).count f =
        if f ∈ (tsPart jobs).map (fun x => fmtOf x.1 x.2.1 x.2.2) then 1 else 0)
    ∧ (∀ f : Fmt, reps.lookup f = firstWithFmt (tsPart jobs) f)
    ∧ (∀ (p : TSProxy) (m : String) (a : PyVal), (p, m, a) ∈ tsPart jobs →
        (buildPayloads reps).1.lookup (fmtOf p m a) = some (makeRequest p m a)) := by
  have hlk : ∀ f : Fmt, reps.lookup f = firstWithFmt (tsPart jobs) f :=
    buildFormats_lookup hbf
  have hnd : (reps.map Prod.fst).Nodup := buildFormats_nodup hbf (by simp)
  refine ⟨?_, hlk, ?_⟩
  · intro f
    have hkeys : (buildPayloads reps).2.map Prod.snd = reps.map Prod.fst := by
      simp [buildPayloads, List.map_map, Function.comp]
    rw [hkeys]
    by_cases hf : f ∈ (tsPart jobs).map (fun x => fmtOf x.1 x.2.1 x.2.2)
    · rw [if_pos hf]
      rcases List.mem_map.mp hf with ⟨x, hx, hfx⟩
      rcases x with ⟨p, m, a⟩
      rcases firstWithFmt_isSome hx with ⟨q, hq⟩
      have hsome : reps.lookup f = some q := by
        rw [hlk, ← hfx]; exact hq
      have hmem : f ∈ reps.map Prod.fst := by
        refine (lookup_isSome_iff_mem_keys reps f).mp ?_
        rw [hsome]; rfl
      exact count_eq_one_of_mem_lawful hnd hmem
    · rw [if_neg hf]
      have hfw : firstWithFmt (tsPart jobs) f = none := by
        cases hq : firstWithFmt (tsPart jobs) f with
        | none => rfl
        | some q => exact absurd (firstWithFmt_mem_image hq) hf
      have hnone : reps.lookup f = none := by rw [hlk]; exact hfw
      have hnm : f ∉ reps.map Prod.fst := by
        intro hm
        have := (lookup_isSome_iff_mem_keys reps f).mpr hm
        rw [hnone] at this
        cases this
      exact List.count_eq_zero.mpr hnm
  · intro p m a hmem
    rcases firstWithFmt_isSome hmem with ⟨q, hq⟩
    have hlkq : reps.lookup (fmtOf p m a) = some q := by rw [hlk]; exact hq
    have hpay := buildPayloads_lookup hlkq
    have hrf : requestFormat q = requestFormat p := firstWithFmt_requestFormat hq
    have hmk : makeRequest q m a = makeRequest p m a := by
      have h1 : q.encoding = p.encoding := congrArg Prod.fst hrf
      have h2 : q.allowNone = p.allowNone := congrArg Prod.snd hrf
      simp [makeRequest, h1, h2]
    rw [← hmk]
    exact hpay

/-- Witness for C2 on a batch of two proxies sharing method, args and
encoding options: the encoder runs once for the shared key, the first
proxy is the representative, and the cached payload for the second
proxy's key is exactly what that proxy would have built. -/
theorem runTwoStage_payload_dedup_witness :
    ((buildPayloads [(("m", PyVal.tupleVal [1], (none, false)), tsp 2)]).2.map Prod.snd).count
        ("m", PyVal.tupleVal [1], (none, false)) = 1
    ∧ (buildPayloads [(("m", PyVal.tupleVal [1], (none, false)), tsp 2)]).1.lookup
        ("m", PyVal.tupleVal [1], (none, false))
      = some (makeRequest (tsp 3) "m" (PyVal.tupleVal [1])) := by
  have h := @runTwoStage_payload_dedup
    [(Proxy.ts (tsp 2), "m", PyVal.tupleVal [1]),
     (Proxy.ts (tsp 3), "m", PyVal.tupleVal [1])]
    [(("m", PyVal.tupleVal [1], (none, false)), tsp 2)] rfl
  constructor
  · have h1 := h.1 ("m", PyVal.tupleVal [1], (none, false))
    rw [if_pos (by decide)] at h1
    exact h1
  · exact h.2.2 (tsp 3) "m" (PyVal.tupleVal [1]) (by decide)

/-- C3: in a run whose phases all complete (non-empty two-stage part,
formats and starts recorded, fallback drained without raising, socklist
built without a stale token), the full output is the fallback block
followed by the poll-loop results and the leftover finishes: every
fallback Result precedes every pipelined Result, each poll-loop Result
is the finish of a socklist pair, and the leftovers come from started. -/
theorem runTwoStage_fallback_results_first {env : Env} {seqs0 seqs1 seqs2 : Seqs}
    {fb : FallbackVal} {jobs : List Job} {reps : List (Fmt × TSProxy)}
    {started : List (TSProxy × RState)} {A B : List RpcResult}
    {socklist : List (Sockfd × (TSProxy × RState))} {rem : List (TSProxy × RState)}
    (hts : (tsPart jobs).isEmpty = false)
    (hbf : buildFormats (tsPart jobs) [] = .ok reps)
    (hsa : startAll env (buildPayloads reps).1 (tsPart jobs) seqs0 = (seqs1, .ok started))
    (hcf : (if (otherPart jobs).isEmpty then (seqs1, ([], none))
            else callFallback env seqs1 fb (otherPart jobs)) = (seqs2, (A, none)))
    (hsl : buildSocklist seqs2 started = .ok socklist)
    (hpl : pollLoop env seqs2 socklist started = (B, rem)) :
    runTwoStageJobs env seqs0 fb jobs =
      (A ++ B ++ rem.map (fun pr => proxyFinishRequest env seqs2 pr.1 pr.2), none)
    ∧ (∀ r ∈ B, ∃ x ∈ socklist, r = proxyFinishRequest env seqs2 x.2.1 x.2.2)
    ∧ (∀ pr ∈ rem, pr ∈ started) := by
  have hB : B = (pollLoopAux env seqs2 socklist.length 0 socklist started).1 := by
    rw [pollLoop] at hpl
    exact (congrArg Prod.fst hpl).symm
  have hrem : rem = (pollLoopAux env seqs2 socklist.length 0 socklist started).2 := by
    rw [pollLoop] at hpl
    exact (congrArg Prod.snd hpl).symm
  refine ⟨runTwoStage_run_eq hts hbf hsa hcf hsl hpl, ?_, ?_⟩
  · intro r hr
    rw [hB] at hr
    exact pollLoopAux_mem env seqs2 _ _ _ _ r hr
  · intro pr hpr
    rw [hrem] at hpr
    exact pollLoopAux_rem_subset env seqs2 _ _ _ _ hpr

/-- Witness for C3: one two-stage job and one plain job; the plain job's
fallback Result is yielded before the pipelined Result. -/
theorem runTwoStage_fallback_results_first_witness :
    runTwoStageJobs envOk [] .fbSequential
        [(Proxy.ts (tsp 2), "m", PyVal.noneVal), (Proxy.plain ⟨5⟩, "m", PyVal.noneVal)] =
      ([(some (.single (.strVal "m5")), none), (some (.single (.intVal 21)), none)], none) := by
  have h := (@runTwoStage_fallback_results_first envOk [] [(2, 1)] [(2, 1)]
    FallbackVal.fbSequential
    [(Proxy.ts (tsp 2), "m", PyVal.noneVal), (Proxy.plain ⟨5⟩, "m", PyVal.noneVal)]
    [(("m", PyVal.noneVal, (none, false)), tsp 2)]
    [(tsp 2, RState.ok ⟨⟨2, 1⟩, false, 1⟩)]
    [(some (.single (.strVal "m5")), none)]
    [(some (.single (.intVal 21)), none)]
    [((2, 1), (tsp 2, RState.ok ⟨⟨2, 1⟩, false, 1⟩))]
    [] rfl rfl rfl rfl rfl rfl).1
  simpa using h

/-- C4: under the same phase hypotheses, a job whose start raised (its
pair in started carries the sentinel exception) is never entered into
socklist, survives the poll loop with unchanged multiplicity, and its
finish is the single (None, exception) pair; by the output equation
those sentinel finishes are emitted after the whole poll loop block. -/
theorem runTwoStage_failed_start_one_error {env : Env} {seqs0 seqs1 seqs2 : Seqs}
    {fb : FallbackVal} {jobs : List Job} {reps : List (Fmt × TSProxy)}
    {started : List (TSProxy × RState)} {A B : List RpcResult}
    {socklist : List (Sockfd × (TSProxy × RState))} {rem : List (TSProxy × RState)}
    (hts : (tsPart jobs).isEmpty = false)
    (hbf : buildFormats (tsPart jobs) [] = .ok reps)
    (hsa : startAll env (buildPayloads reps).1 (tsPart jobs) seqs0 = (seqs1, .ok started))
    (hcf : (if (otherPart jobs).isEmpty then (seqs1, ([], none))
            else callFallback env seqs1 fb (otherPart jobs)) = (seqs2, (A, none)))
    (hsl : buildSocklist seqs2 started = .ok socklist)
    (hpl : pollLoop env seqs2 socklist started = (B, rem)) :
    runTwoStageJobs env seqs0 fb jobs =
      (A ++ B ++ rem.map (fun pr => proxyFinishRequest env seqs2 pr.1 pr.2), none)
    ∧ (∀ (p : TSProxy) (e : Exc),
        rem.count (p, RState.exc e) = started.count (p, RState.exc e))
    ∧ (∀ (p : TSProxy) (e : Exc),
        proxyFinishRequest env seqs2 p (RState.exc e) = (none, some e)) := by
  have hrem : rem = (pollLoopAux env seqs2 socklist.length 0 socklist started).2 := by
    rw [pollLoop] at hpl
    exact (congrArg Prod.snd hpl).symm
  refine ⟨runTwoStage_run_eq hts hbf hsa hcf hsl hpl, ?_, fun p e => rfl⟩
  intro p e
  rw [hrem]
  exact pollLoopAux_count_exc env seqs2 _ _ _ _
    (fun x hx => (buildSocklist_mem hsl x hx).2) p e

/-- Witness for C4: a failed start on transport 1 next to a successful
start on transport 2; the sentinel pair survives the poll loop once and
finishes to its single error pair. -/
theorem runTwoStage_failed_start_one_error_witness :
    List.count ((tsp 1), RState.exc (Exc.ioError "connection refused"))
        [((tsp 1), RState.exc (Exc.ioError "connection refused"))]
      = List.count ((tsp 1), RState.exc (Exc.ioError "connection refused"))
        [((tsp 1), RState.exc (Exc.ioError "connection refused")),
         ((tsp 2), RState.ok ⟨⟨2, 1⟩, false, 1⟩)] :=
  (@runTwoStage_failed_start_one_error envRefuse1 [] [(2, 1), (1, 1)] [(2, 1), (1, 1)]
    FallbackVal.fbSequential
    [(Proxy.ts (tsp 1), "m", PyVal.noneVal), (Proxy.ts (tsp 2), "m", PyVal.noneVal)]
    [(("m", PyVal.noneVal, (none, false)), tsp 1)]
    [(tsp 1, RState.exc (Exc.ioError "connection refused")),
     (tsp 2, RState.ok ⟨⟨2, 1⟩, false, 1⟩)]
    [] [(some (.single (.intVal 21)), none)]
    [((2, 1), (tsp 2, RState.ok ⟨⟨2, 1⟩, false, 1⟩))]
    [(tsp 1, RState.exc (Exc.ioError "connection refused"))]
    rfl rfl rfl rfl rfl rfl).2.1 (tsp 1) (Exc.ioError "connection refused")

/-- Counterexample to the literal C4 wording: with one refused start and
one successful sibling, the error Result is yielded second, after the
poll loop has drained the sibling, not immediately before it. -/
theorem runTwoStage_failed_start_waits_cex :
    runTwoStageJobs envRefuse1 [] .fbSequential
        [(Proxy.ts (tsp 1), "m", PyVal.noneVal), (Proxy.ts (tsp 2), "m", PyVal.noneVal)] =
      ([(some (.single (.intVal 21)), none), (none, some (.ioError "connection refused"))], none)
    ∧ (runTwoStageJobs envRefuse1 [] .fbSequential
        [(Proxy.ts (tsp 1), "m", PyVal.noneVal), (Proxy.ts (tsp 2), "m", PyVal.noneVal)]).1.get? 0
      ≠ some (none, some (.ioError "connection refused")) :=
  ⟨rfl, by decide⟩

/-- C5: with a matching token, a completed exchange whose status is not
200 makes the transport finish fall through to Python None, which the
proxy turns into a (None, TypeError) pair, never a success pair; and a
fault payload inside a 200 response comes back as the structured
(None, Fault) pair. -/
theorem finish_non200_or_fault_is_error (env : Env) (seqs : Seqs) (p : TSProxy)
    (h : THandle) (hseq : h.seq = seqGet seqs p.id) :
    (∀ (code : Nat) (body : DecodeOutcome), env.finish p.id h.seq = .status code body →
      code ≠ 200 →
      transportFinishRequest env seqs p.id h = .ok none
      ∧ proxyFinishRequest env seqs p (.ok h) =
          (none, some (.typeError "object of type NoneType has no len")))
    ∧ (∀ (c : Int) (msg : String), env.finish p.id h.seq = .status 200 (.fault c msg) →
      proxyFinishRequest env seqs p (.ok h) = (none, some (.fault c msg))) := by
  constructor
  · intro code body hfin hcode
    have ht : transportFinishRequest env seqs p.id h = .ok none := by
      unfold transportFinishRequest
      rw [if_pos hseq, hfin]
      simp [hcode]
    exact ⟨ht, by simp only [proxyFinishRequest, ht]⟩
  · intro c msg hfin
    have ht : transportFinishRequest env seqs p.id h = .error (.fault c msg) := by
      unfold transportFinishRequest
      rw [if_pos hseq, hfin]
      simp
    simp only [proxyFinishRequest, ht]

/-- Witness for C5: a 500 status yields the (None, TypeError) pair and a
fault payload yields the (None, Fault) pair. -/
theorem finish_non200_or_fault_is_error_witness :
    proxyFinishRequest envStatus500 [(2, 1)] (tsp 2) (RState.ok ⟨⟨2, 1⟩, false, 1⟩) =
      (none, some (.typeError "object of type NoneType has no len"))
    ∧ proxyFinishRequest envFault [(2, 1)] (tsp 2) (RState.ok ⟨⟨2, 1⟩, false, 1⟩) =
      (none, some (.fault 3 "boom")) :=
  ⟨((finish_non200_or_fault_is_error envStatus500 [(2, 1)] (tsp 2) ⟨⟨2, 1⟩, false, 1⟩
      rfl).1 500 (.values []) rfl (by decide)).2,
   (finish_non200_or_fault_is_error envFault [(2, 1)] (tsp 2) ⟨⟨2, 1⟩, false, 1⟩
      rfl).2 3 "boom" rfl⟩

/-- C6 (amended part): a handle whose token differs from the transport
current token is caught by the assert in get_sockfd and in
finish_request, and through the proxy finish_request it becomes that
request's single (None, AssertionError) pair. -/
theorem staleToken_detected (env : Env) (seqs : Seqs) (p : TSProxy) (h : THandle)
    (hne : h.seq ≠ seqGet seqs p.id) :
    transportGetSockfd seqs p.id h = .error .assertionError
    ∧ transportFinishRequest env seqs p.id h = .error .assertionError
    ∧ proxyFinishRequest env seqs p (.ok h) = (none, some .assertionError) := by
  have h2 : transportFinishRequest env seqs p.id h = .error .assertionError := by
    unfold transportFinishRequest
    rw [if_neg hne]
  refine ⟨?_, h2, by simp only [proxyFinishRequest, h2]⟩
  unfold transportGetSockfd
  rw [if_neg hne]

/-- Witness for C6 at a concrete stale handle. -/
theorem staleToken_detected_witness :
    transportGetSockfd [(1, 2)] 1 ⟨⟨1, 1⟩, false, 1⟩ = .error .assertionError
    ∧ transportFinishRequest envOk [(1, 2)] 1 ⟨⟨1, 1⟩, false, 1⟩ = .error .assertionError
    ∧ proxyFinishRequest envOk [(1, 2)] (tsp 1) (RState.ok ⟨⟨1, 1⟩, false, 1⟩) =
      (none, some .assertionError) :=
  staleToken_detected envOk [(1, 2)] (tsp 1) ⟨⟨1, 1⟩, false, 1⟩ (by decide)

/-- Counterexample to the literal C6 wording: two jobs on the same proxy
make the scheduler call get_sockfd on a stale handle; the AssertionError
propagates out of the generator, so the whole batch aborts with zero
Results instead of confining the failure to one request. -/
theorem staleToken_aborts_batch_cex :
    runTwoStageJobs envOk [] .fbSequential
        [(Proxy.ts (tsp 1), "m", PyVal.noneVal), (Proxy.ts (tsp 1), "m", PyVal.noneVal)] =
      ([], some .assertionError) := rfl

/-- C7: the claim says _hybrid_requests behaves like RunTwoStageJobs with
RunThreadedJobs as fallback. The code instead passes the three-argument
helper _threaded_requests, so on a mixed batch the fallback call raises
TypeError and the batch yields nothing, while the intended fallback
value yields both pairs, the threaded one first. -/
theorem hybrid_mixed_batch_typeError :
    hybridRequests envOk [] [Proxy.ts (tsp 2), Proxy.plain ⟨5⟩] "m" PyVal.noneVal =
      ([], some (.typeError "threaded_requests takes exactly 3 arguments, 1 given"))
    ∧ runTwoStageJobs envOk [] .fbRunThreaded
        [(Proxy.ts (tsp 2), "m", PyVal.noneVal), (Proxy.plain ⟨5⟩, "m", PyVal.noneVal)] =
      ([(some (.single (.strVal "m5")), none), (some (.single (.intVal 21)), none)], none) :=
  ⟨rfl, rfl⟩

/-- C8: RunSequentialJobs yields exactly one pair per job, the i-th pair
is the synchronous outcome of the i-th job run in the state left by its
predecessors, and a call that raises is captured as that job's
(None, exception) pair. -/
theorem runSequential_one_result_per_job_in_order (env : Env) (seqs : Seqs)
    (jobs : List Job) :
    (runSequentialJobs env seqs jobs).2.length = jobs.length
    ∧ (∀ (i : Nat) (hi : i < jobs.length),
        (runSequentialJobs env seqs jobs).2.get? i =
          some (sequentialRequest env (runSequentialJobs env seqs (jobs.take i)).1
            (jobs.get ⟨i, hi⟩)).2)
    ∧ (∀ (i : Nat) (hi : i < jobs.length) (q : PlainProxy) (m : String) (a : PyVal)
        (e : Exc),
        jobs.get ⟨i, hi⟩ = (Proxy.plain q, m, a) → env.plainCall q.id m a = .error e →
        (runSequentialJobs env seqs jobs).2.get? i = some (none, some e)) := by
  refine ⟨runSequentialJobs_length env jobs seqs, runSequentialJobs_get env jobs seqs, ?_⟩
  intro i hi q m a e hj herr
  rw [runSequentialJobs_get env jobs seqs i hi, hj]
  simp [sequentialRequest, herr]

/-- Witness for C8: the second job of a two-job batch raises and its pair
is the (None, error) pair at index 1. -/
theorem runSequential_one_result_per_job_in_order_witness :
    (runSequentialJobs envPlainBoom []
        [(Proxy.ts (tsp 2), "m", PyVal.noneVal),
         (Proxy.plain ⟨9⟩, "m", PyVal.noneVal)]).2.get? 1 =
      some (none, some (.ioError "boom")) :=
  (runSequential_one_result_per_job_in_order envPlainBoom []
    [(Proxy.ts (tsp 2), "m", PyVal.noneVal), (Proxy.plain ⟨9⟩, "m", PyVal.noneVal)]).2.2
    1 (by decide) ⟨9⟩ "m" PyVal.noneVal (.ioError "boom") rfl rfl

/-- C9: a URI whose parsed scheme is not http makes the proxy constructor
raise UnknownProtocolError with no transport constructed, and the facade
catches exactly that error for string addresses, substituting a plain
synchronous ServerProxy, which never counts as two-stage. -/
theorem non_http_scheme_rejected (lo : Bool) (pid : Nat) (uri : List Char)
    (enc : Option String) (an vb : Bool)
    (hsch : (splittype uri).1 ≠ some ("http".data)) :
    tsspInit pid uri enc an vb = (.error .unknownProtocolError, 0)
    ∧ buildProxy lo pid (.addr uri) = .ok (.plain ⟨pid⟩)
    ∧ (Proxy.plain ⟨pid⟩).isTS = false := by
  have h1 : ∀ (e : Option String) (a v : Bool),
      tsspInit pid uri e a v = (.error .unknownProtocolError, 0) := by
    intro e a v
    unfold tsspInit
    rcases hspl : splittype uri with ⟨ty, rest⟩
    have hty : ty ≠ some ("http".data) := by
      rw [hspl] at hsch
      exact hsch
    simp [hty]
  refine ⟨h1 enc an vb, ?_, rfl⟩
  simp only [buildProxy]
  by_cases hg : gateAllows lo uri
  · rw [if_pos hg, h1 none false false]
  · rw [if_neg hg]

/-- Witness for C9 at the https scheme. -/
theorem non_http_scheme_rejected_witness :
    tsspInit 0 ("https://x/".data) none false false = (.error .unknownProtocolError, 0)
    ∧ buildProxy false 0 (.addr ("https://x/".data)) = .ok (.plain ⟨0⟩)
    ∧ (Proxy.plain ⟨0⟩).isTS = false :=
  non_http_scheme_rejected false 0 ("https://x/".data) none false false (by decide)

/-- C10: a batch containing a two-stage job whose arg_list is a Python
list makes RunTwoStageJobs raise TypeError while hashing the FormatKey,
before yielding any Result, whatever the environment, the initial
transport states and the fallback. -/
theorem unhashable_args_raise_typeError (env : Env) (seqs : Seqs) (fb : FallbackVal)
    {jobs : List Job} {p : TSProxy} {m : String} {a : PyVal}
    (hmem : (Proxy.ts p, m, a) ∈ jobs) (hna : a.hashable = false) :
    runTwoStageJobs env seqs fb jobs = ([], some (.typeError "unhashable type")) := by
  have hmem2 : (p, m, a) ∈ tsPart jobs := mem_tsPart_of_mem hmem
  have hts : (tsPart jobs).isEmpty = false := by
    cases htp : tsPart jobs with
    | nil => rw [htp] at hmem2; cases hmem2
    | cons x xs => rfl
  have herr := buildFormats_unhashable hmem2 hna []
  unfold runTwoStageJobs
  simp only [hts, Bool.false_eq_true, if_false, herr]

/-- Witness for C10: a single job with a list arg_list. -/
theorem unhashable_args_raise_typeError_witness :
    runTwoStageJobs envOk [] .fbSequential [(Proxy.ts (tsp 2), "m", PyVal.listVal [1])] =
      ([], some (.typeError "unhashable type")) :=
  @unhashable_args_raise_typeError envOk [] FallbackVal.fbSequential
    [(Proxy.ts (tsp 2), "m", PyVal.listVal [1])]
    (tsp 2) "m" (PyVal.listVal [1]) (by decide) rfl
